import Mathlib

/-!
Verification of the workflow execution engine
(`api/services/workflow/node_processor.go` and friends).

The Go code is shallowly embedded:

* `interface{}` values that flow through step outputs and the shared
  execution context become the inductive `GoValue`; Go `float64` is
  modelled as `ℚ` (every numeric literal appearing in the program and in
  its tests is exactly representable, and the five comparison operators
  agree with the rational ones on such values).
* Wall-clock measurements (`time.Since`, `time.Now`) are not expressible
  in a pure embedding; the elapsed-time output entry is modelled by the
  constant `durationVal` and timestamps by `""`.  No theorem below depends
  on the numeric value of a duration or on a timestamp, only on the
  presence of the `"duration"` key.
* The package-level handler variables `processWeatherNodeFn` and
  `processEmailNodeFn` (the test substitution seam) become the explicit
  parameters `weatherFn`/`emailFn`; the default weather implementation
  performs HTTP calls and is therefore left abstract.
* Go's `nil`-pointer dereference and failed type assertions are modelled
  by an explicit `panicked` outcome.
* The recursive closure `traverse` is embedded with a fuel parameter;
  `processNodes` supplies `wf.nodes.length + 1` fuel, which is proved
  sufficient (`traverse_no_outOfFuel`), so the `outOfFuel` outcome is
  unreachable from `processNodes`.
-/

namespace Workflow

/-- Dynamic values (`interface{}`) stored in step outputs and in the shared
`contextData` map.  `float` plays the role of Go `float64`. -/
inductive GoValue where
  | str (s : String)
  | float (q : ℚ)
  | int (n : Int)
  | bool (b : Bool)
  | null
  | obj (fields : List (String × GoValue))

/-- The shared execution context `contextData map[string]any`.
Modelled as an association list where the most recent write is consed to
the front, so lookup returns the last value written (Go map semantics for
the operations the code performs). -/
abbrev Ctx := List (String × GoValue)

/-- Reading `contextData[k]` with the comma-ok form. -/
def ctxLookup (ctx : Ctx) (k : String) : Option GoValue :=
  match ctx with
  | [] => none
  | (k', v) :: rest => if k' = k then some v else ctxLookup rest k

/-- Writing `contextData[k] = v`. -/
def ctxInsert (ctx : Ctx) (k : String) (v : GoValue) : Ctx :=
  (k, v) :: ctx

/-- Reading a Go map at a key without the comma-ok form: a missing key
yields the `nil` interface value. -/
def optVal : Option GoValue → GoValue
  | none => GoValue.null
  | some v => v

/-- `EmailTemplate` (node.go). -/
structure EmailTemplate where
  subject : String
  body : String

/-- `NodeMetadata` (node.go).  Only the fields read by the execution core
are kept; `hasHandles`, `inputFields`, `outputVariables`, `inputVariables`,
`options` and `conditionExpression` are never read by `processNodes` or any
node handler.  `emailTemplate` is a Go pointer (`*EmailTemplate`), hence
`Option`. -/
structure NodeMetadata where
  emailTemplate : Option EmailTemplate
  apiEndpoint : String

/-- `NodeData` (node.go). -/
structure NodeData where
  label : String
  description : String
  metadata : NodeMetadata

/-- `Node` (node.go).  `position` is layout-only and never read by the
execution core, so it is omitted. -/
structure Node where
  id : String
  type : String
  data : NodeData

/-- `Edge` (node.go).  Only `source`, `target` and `label` are read by the
execution core; `id`, `type`, `animated`, `sourceHandle`, `style` and
`labelStyle` are omitted. -/
structure Edge where
  source : String
  target : String
  label : String

/-- `WorkflowDefinition` (node.go). -/
structure WorkflowDefinition where
  id : String
  nodes : List Node
  edges : List Edge

/-- `FormData` (workflow.go).  The optional duplicated `operator` and
`threshold` fields are never read by the execution core and are omitted. -/
structure FormData where
  name : String
  email : String
  city : String

/-- `Condition` (workflow.go).  `threshold float64` is modelled as `ℚ`. -/
structure Condition where
  operator : String
  threshold : ℚ

/-- `ExecutePayload` (workflow.go). -/
structure ExecutePayload where
  formData : FormData
  condition : Condition

/-- `StepResult` (node_processor.go). -/
structure StepResult where
  nodeId : String
  type : String
  label : String
  description : String
  status : String
  output : List (String × GoValue)

/-- `ExecutionResult` (node_processor.go).  `executedAt` is produced by
`time.Now()` and is modelled as the constant `""`. -/
structure ExecutionResult where
  executedAt : String
  status : String
  steps : List StepResult

-- Constants from node_processor.go.
def StartNodeID : String := "start"
def EndNodeID : String := "end"
def FormNodeID : String := "form"
def WeatherAPINodeID : String := "weather-api"
def ConditionNodeID : String := "condition"
def EmailNodeID : String := "email"
def StatusCompleted : String := "completed"
def StatusFailed : String := "failed"
def ConditionMetString : String := "condition met"
def ConditionNotMetString : String := "condition not met"

/-- The named errors of errors.go together with the `fmt.Errorf` errors
produced by the execution core.  `custom` stands for an arbitrary error
returned by a substituted weather/email handler. -/
inductive WfError where
  | missingStartNode
  | missingEndNode
  | missingFormFieldName
  | missingFormFieldEmail
  | missingFormFieldCity
  | responseDecodeFailed
  | nodeNotFound (id : String)
  | noMatchingCondEdge (id : String)
  | weatherTempNotInMap
  | weatherTempNotFloat
  | unsupportedOperator (op : String)
  | custom (msg : String)
deriving DecidableEq

/-- `err.Error()`: the message text of each error, as written in errors.go
and in the `fmt.Errorf` calls of node_processor.go. -/
def WfError.message : WfError → String
  | .missingStartNode => "missing \x27start\x27 node"
  | .missingEndNode => "missing \x27end\x27 node"
  | .missingFormFieldName => "name is required"
  | .missingFormFieldEmail => "email is required"
  | .missingFormFieldCity => "city is required"
  | .responseDecodeFailed => "failed to decode response"
  | .nodeNotFound id => "node " ++ id ++ " not found in nodeMap"
  | .noMatchingCondEdge id => "no matching conditional edge for node " ++ id
  | .weatherTempNotInMap => "weather temp not in map"
  | .weatherTempNotFloat => "weather temp is not a float64"
  | .unsupportedOperator op => "unsupported operator: " ++ op
  | .custom msg => msg

-- Node handlers (node_processor.go).

/-- `processStartNode`: logging only, always succeeds. -/
def processStartNode (_node : Node) : Option WfError := none

/-- `processEndNode`: logging only, always succeeds. -/
def processEndNode (_node : Node) : Option WfError := none

/-- `processFormNode`: validates the three required payload fields. -/
def processFormNode (_node : Node) (payload : ExecutePayload) : Option WfError :=
  if payload.formData.name = "" then some .missingFormFieldName
  else if payload.formData.email = "" then some .missingFormFieldEmail
  else if payload.formData.city = "" then some .missingFormFieldCity
  else none

/-- `processConditionNode`: reads the temperature recorded by the weather
node from the shared context and compares it against the payload threshold
with the payload operator. -/
def processConditionNode (_node : Node) (payload : ExecutePayload) (contextData : Ctx) :
    Except WfError Bool :=
  match ctxLookup contextData "weather.temperature" with
  | none => .error .weatherTempNotInMap
  | some tempVal =>
    match tempVal with
    | .float temperature =>
      let operator := payload.condition.operator
      let threshold := payload.condition.threshold
      if operator = "greater_than" then .ok (decide (temperature > threshold))
      else if operator = "less_than" then .ok (decide (temperature < threshold))
      else if operator = "equals" then .ok (decide (temperature = threshold))
      else if operator = "greater_than_or_equal" then .ok (decide (temperature ≥ threshold))
      else if operator = "less_than_or_equal" then .ok (decide (temperature ≤ threshold))
      else .error (.unsupportedOperator operator)
    | _ => .error .weatherTempNotFloat

/-- Type of the package-level variable `processWeatherNodeFn`: the handler
may mutate the shared context and may fail.  The default implementation
performs two HTTP calls and is left abstract; theorems quantify over this
substitution point exactly as the unit tests substitute it. -/
abbrev WeatherFn := Node → ExecutePayload → Ctx → Ctx × Option WfError

/-- Type of the package-level variable `processEmailNodeFn`. -/
abbrev EmailFn := Node → ExecutePayload → Option WfError

/-- `processEmailNode`: the default email handler only logs and always
succeeds. -/
def processEmailNode (_node : Node) (_payload : ExecutePayload) : Option WfError := none

/-- `time.Since(startTime).Milliseconds()`: elapsed wall-clock time is not
expressible in the embedding; modelled as the constant `0`.  Theorems only
ever use the presence of the `"duration"` key, never this value. -/
def durationVal : GoValue := GoValue.int 0

/-- An approximation of Go's `fmt.Sprintf("%.1f", q)` for a float value:
one decimal digit.  (Binary floating-point formatting is not exactly
representable here; no theorem depends on rendered text.) -/
def fmt1 (q : ℚ) : String :=
  let n : Int := round (q * 10)
  let a : Nat := n.natAbs
  let s := toString (a / 10) ++ "." ++ toString (a % 10)
  if n < 0 then "-" ++ s else s

/-- `fmt.Sprintf("%.1f", v)` applied to an arbitrary interface value read
from the context (Go renders an error verb for non-float values; the exact
error-verb text is abbreviated, no theorem depends on it). -/
def sprintfFloat1 : Option GoValue → String
  | some (.float q) => fmt1 q
  | none => "%!f(<nil>)"
  | some _ => "%!f(BADVERB)"

/-- The human readable message built in the condition case of `traverse`:
`fmt.Sprintf("Temperature %.1f°C is %s %.1f°C - %s", ...)`. -/
def condMessage (actualValue : ℚ) (operatorReadable : String) (threshold : ℚ)
    (conditionText : String) : String :=
  "Temperature " ++ fmt1 actualValue ++ "°C is " ++ operatorReadable ++ " "
    ++ fmt1 threshold ++ "°C - " ++ conditionText

/-- `appendStep` (node_processor.go): the `StepResult` appended to the
step list for a node. -/
def appendStep (node : Node) (status : String) (output : List (String × GoValue)) :
    StepResult :=
  { nodeId := node.id
    type := node.type
    label := node.data.label
    description := node.data.description
    status := status
    output := output }

/-- The failed-step output map `{"error": err.Error(), "duration": d}`
built in every handler-error branch of `traverse`. -/
def failOutput (e : WfError) : List (String × GoValue) :=
  [("error", .str e.message), ("duration", durationVal)]

/-- The mock email output map built in the email case of `traverse`.
Dereferencing the template pointer is done by the caller
(`processNodeActionKeyed`), which models the `nil`-pointer panic. -/
def emailOutput (_node : Node) (tmpl : EmailTemplate) (payload : ExecutePayload)
    (contextData : Ctx) : List (String × GoValue) :=
  [("emailDraft", .obj
      [("to", .str payload.formData.email),
       ("from", .str "weather-alerts@example.com"),
       ("subject", .str tmpl.subject),
       ("body", .str (((tmpl.body).replace "\x7b\x7bcity\x7d\x7d" payload.formData.city).replace
          "\x7b\x7btemperature\x7d\x7d" (sprintfFloat1 (ctxLookup contextData "weather.temperature")))),
       ("timestamp", .str "")]),
   ("deliveryStatus", .str "sent"),
   ("messageId", .str "msg_abc123def456"),
   ("emailSent", .bool true),
   ("duration", durationVal)]

/-- Building `nodeMap` and indexing it: `nodeMap[id]` after
`for _, node := range wf.Nodes { nodeMap[node.ID] = node }`.
A later node with the same id overwrites an earlier one. -/
def nodeMapLookup (nodes : List Node) (id : String) : Option Node :=
  nodes.foldl (fun acc n => if n.id = id then some n else acc) none

/-- Building the adjacency map and indexing it: `adj[id]` after
`for _, edge := range wf.Edges { adj[edge.Source] = append(adj[edge.Source], edge.Target) }`,
i.e. the targets of the edges leaving `id`, in edge-declaration order. -/
def adjTargets (edges : List Edge) (id : String) : List String :=
  (edges.filter (fun e => e.source == id)).map (fun e => e.target)

/-- The test performed on each edge by the conditional-routing loop in the
condition case of `traverse`: the edge leaves the condition node and its
label is the sentinel for the boolean outcome. -/
def condEdgeMatch (nodeId : String) (conditionMet : Bool) (e : Edge) : Bool :=
  e.source == nodeId &&
    (if conditionMet then e.label == "✓ Condition Met" else e.label == "✗ No Alert Needed")

/-- What one arm of the `switch node.ID` dispatch in `traverse` tells the
engine to do next.

* `halt st ctx`: the handler returned an error; `st` is the failed
  `StepResult` that was appended, and the arm does `return nil` — the
  traversal does not descend below this node but reports no error.
* `descend sts ctx`: the arm appended the steps `sts` (one completed step,
  or none for an id outside the switch) and falls through to the
  adjacency loop.
* `branch st met ctx`: the condition arm appended the completed step `st`
  and routes along the single edge labelled for outcome `met`.
* `panicked`: a `nil`-pointer dereference or failed type assertion. -/
inductive NodeAction where
  | halt (st : StepResult) (ctx : Ctx)
  | descend (sts : List StepResult) (ctx : Ctx)
  | branch (st : StepResult) (conditionMet : Bool) (ctx : Ctx)
  | panicked

/-- The body of the `switch` statement in `traverse` (node_processor.go),
with the scrutinee abstracted as `key`.  The Go code switches on `node.ID`
(`processNodeAction`); the spec's §4.3 claims dispatch on the type
discriminator instead, which `processNodeActionByType` expresses for
claim C2.  Everything inside the arms is translated from the source. -/
def processNodeActionKeyed (key : String) (node : Node) (payload : ExecutePayload)
    (contextData : Ctx) (weatherFn : WeatherFn) (emailFn : EmailFn) : NodeAction :=
  if key = StartNodeID then
    match processStartNode node with
    | some err => .halt (appendStep node StatusFailed (failOutput err)) contextData
    | none => .descend [appendStep node StatusCompleted [("duration", durationVal)]] contextData
  else if key = EndNodeID then
    match processEndNode node with
    | some err => .halt (appendStep node StatusFailed (failOutput err)) contextData
    | none => .descend [appendStep node StatusCompleted [("duration", durationVal)]] contextData
  else if key = FormNodeID then
    match processFormNode node payload with
    | some err => .halt (appendStep node StatusFailed (failOutput err)) contextData
    | none => .descend
        [appendStep node StatusCompleted
          [("name", .str payload.formData.name),
           ("email", .str payload.formData.email),
           ("city", .str payload.formData.city),
           ("duration", durationVal)]] contextData
  else if key = WeatherAPINodeID then
    match weatherFn node payload contextData with
    | (ctx', some err) => .halt (appendStep node StatusFailed (failOutput err)) ctx'
    | (ctx', none) => .descend
        [appendStep node StatusCompleted
          [("temperature", optVal (ctxLookup ctx' "weather.temperature")),
           ("location", .str payload.formData.city),
           ("duration", durationVal)]] ctx'
  else if key = ConditionNodeID then
    match processConditionNode node payload contextData with
    | .error err => .halt (appendStep node StatusFailed (failOutput err)) contextData
    | .ok conditionMet =>
      -- `actualValue := contextData["weather.temperature"].(float64)` is an
      -- unchecked type assertion: a non-float value would panic here.
      match ctxLookup contextData "weather.temperature" with
      | some (.float actualValue) =>
        let operatorReadable := (payload.condition.operator).replace "_" " "
        let threshold := payload.condition.threshold
        let conditionText := if conditionMet then ConditionMetString else ConditionNotMetString
        .branch
          (appendStep node StatusCompleted
            [("conditionMet", .bool conditionMet),
             ("threshold", .float payload.condition.threshold),
             ("operator", .str payload.condition.operator),
             ("actualValue", optVal (ctxLookup contextData "weather.temperature")),
             ("message", .str (condMessage actualValue operatorReadable threshold conditionText)),
             ("duration", durationVal)])
          conditionMet contextData
      | _ => .panicked
  else if key = EmailNodeID then
    match emailFn node payload with
    | some err => .halt (appendStep node StatusFailed (failOutput err)) contextData
    | none =>
      -- `node.Data.Metadata.EmailTemplate.Subject` dereferences the
      -- template pointer without a nil guard.
      match node.data.metadata.emailTemplate with
      | none => .panicked
      | some tmpl =>
        .descend [appendStep node StatusCompleted (emailOutput node tmpl payload contextData)]
          contextData
  else
    -- An id outside the switch: no arm runs, control falls through to the
    -- adjacency loop with no step appended.
    .descend [] contextData

/-- The dispatch actually performed by the code: `switch node.ID`. -/
def processNodeAction (node : Node) (payload : ExecutePayload) (contextData : Ctx)
    (weatherFn : WeatherFn) (emailFn : EmailFn) : NodeAction :=
  processNodeActionKeyed node.id node payload contextData weatherFn emailFn

/-- Modelled from the spec: §4.3 "Dispatch key: the node's type (not its
free-form id)" — the same switch body keyed on `node.Type`.  Used only to
compare the spec's dispatch rule with the code's (claim C2). -/
def processNodeActionByType (node : Node) (payload : ExecutePayload) (contextData : Ctx)
    (weatherFn : WeatherFn) (emailFn : EmailFn) : NodeAction :=
  processNodeActionKeyed node.type node payload contextData weatherFn emailFn

/-- The state threaded through the traversal: the `visited` map (kept as
the list of ids in marking order) and the shared `contextData`. -/
structure TravState where
  visited : List String
  ctx : Ctx

/-- Outcome of one `traverse(id)` call.  `ok`/`fail` mirror the Go
`nil`/non-`nil` error return; the steps appended during the call are
carried alongside (the Go code appends to a closure variable).
`panicked` models a runtime panic, `outOfFuel` is the (provably
unreachable) fuel bound. -/
inductive TravResult where
  | ok (s : TravState) (steps : List StepResult)
  | fail (e : WfError) (s : TravState) (steps : List StepResult)
  | panicked
  | outOfFuel

/-- Prepends already-appended steps to the steps of a traversal outcome. -/
def withSteps (sts : List StepResult) : TravResult → TravResult
  | .ok s out => .ok s (sts ++ out)
  | .fail e s out => .fail e s (sts ++ out)
  | .panicked => .panicked
  | .outOfFuel => .outOfFuel

/-- The adjacency loop
`for _, next := range adj[id] { if err := traverse(next); err != nil { return err } }`:
runs `tr` on each target in order, threading the state and concatenating
the appended steps; a non-`nil` error (or a panic) stops the loop. -/
def foldChildren (tr : TravState → String → TravResult) (s : TravState) :
    List String → TravResult
  | [] => .ok s []
  | t :: rest =>
    match tr s t with
    | .ok s' out => withSteps out (foldChildren tr s' rest)
    | r => r

/-- The recursive closure `traverse` of `processNodes`, with a fuel
parameter making the recursion structural.  `processNodes` supplies
`wf.nodes.length + 1` fuel, which `traverse_no_outOfFuel` proves
sufficient. -/
def traverse (wf : WorkflowDefinition) (act : Node → Ctx → NodeAction) :
    Nat → TravState → String → TravResult
  | 0, _, _ => .outOfFuel
  | fuel + 1, s, id =>
    if s.visited.contains id then .ok s []
    else
      -- `visited[id] = true` happens before the nodeMap lookup.
      let sv : TravState := ⟨s.visited ++ [id], s.ctx⟩
      match nodeMapLookup wf.nodes id with
      | none => .fail (.nodeNotFound id) sv []
      | some node =>
        match act node sv.ctx with
        | .panicked => .panicked
        | .halt st ctx' => .ok ⟨sv.visited, ctx'⟩ [st]
        | .descend sts ctx' =>
          withSteps sts
            (foldChildren (traverse wf act fuel) ⟨sv.visited, ctx'⟩ (adjTargets wf.edges id))
        | .branch st conditionMet ctx' =>
          withSteps [st]
            (match wf.edges.find? (condEdgeMatch node.id conditionMet) with
             | some edge => traverse wf act fuel ⟨sv.visited, ctx'⟩ edge.target
             | none => .fail (.noMatchingCondEdge node.id) ⟨sv.visited, ctx'⟩ [])

/-- The action function `processNodes` actually uses: the `switch node.ID`
body applied to the request payload and the two substitutable handlers. -/
def codeAct (payload : ExecutePayload) (weatherFn : WeatherFn) (emailFn : EmailFn) :
    Node → Ctx → NodeAction :=
  fun node ctx => processNodeAction node payload ctx weatherFn emailFn

/-- Result of `processNodes`: either a panic or the pair
`(*ExecutionResult, error)` (each component possibly nil). -/
inductive ProcessOutcome where
  | panicked
  | ret (result : Option ExecutionResult) (error : Option WfError)

/-- `processNodes` with the dispatch abstracted (shared by the code's
version and the spec-modelled by-type version). -/
def processNodesWith (wf : WorkflowDefinition) (act : Node → Ctx → NodeAction) :
    ProcessOutcome :=
  if (nodeMapLookup wf.nodes StartNodeID).isNone then .ret none (some .missingStartNode)
  else if (nodeMapLookup wf.nodes EndNodeID).isNone then .ret none (some .missingEndNode)
  else
    match traverse wf act (wf.nodes.length + 1) ⟨[], []⟩ StartNodeID with
    | .ok _ steps => .ret (some ⟨"", StatusCompleted, steps⟩) none
    | .fail e _ steps => .ret (some ⟨"", StatusFailed, steps⟩) (some e)
    | .panicked => .panicked
    | .outOfFuel => .panicked

/-- `processNodes` (node_processor.go), parameterised by the two
substitutable handler variables. -/
def processNodes (wf : WorkflowDefinition) (payload : ExecutePayload)
    (weatherFn : WeatherFn) (emailFn : EmailFn) : ProcessOutcome :=
  processNodesWith wf (codeAct payload weatherFn emailFn)

/-- Modelled from the spec: `processNodes` as it would behave if the
switch dispatched on the node's type discriminator (§4.3), for claim C2
only. -/
def processNodesTypeDispatch (wf : WorkflowDefinition) (payload : ExecutePayload)
    (weatherFn : WeatherFn) (emailFn : EmailFn) : ProcessOutcome :=
  processNodesWith wf (fun node ctx => processNodeActionByType node payload ctx weatherFn emailFn)

/-! ### Basic lemmas about the graph indexes -/

/-- The last-write-wins fold that builds `nodeMap` agrees with searching
the reversed node list. -/
theorem nodeMapLookup_eq_find {nodes : List Node} {id : String} :
    nodeMapLookup nodes id = nodes.reverse.find? (fun n => n.id == id) := by
  unfold nodeMapLookup
  suffices H : ∀ acc : Option Node,
      nodes.foldl (fun acc n => if n.id = id then some n else acc) acc
        = (nodes.reverse.find? (fun n => n.id == id)).or acc by
    simpa using H none
  induction nodes with
  | nil => simp
  | cons hd tl ih =>
    intro acc
    simp only [List.foldl_cons, List.reverse_cons, List.find?_append, ih]
    rcases hfind : tl.reverse.find? (fun n => n.id == id) with _ | m
    · by_cases hid : hd.id = id <;> simp [hfind, hid, Option.or]
    · simp [hfind, Option.or]

theorem nodeMapLookup_mem_and_id {nodes : List Node} {id : String} {n : Node}
    (h : nodeMapLookup nodes id = some n) : n ∈ nodes ∧ n.id = id := by
  rw [nodeMapLookup_eq_find] at h
  have hmem := List.mem_of_find?_eq_some h
  have hp := List.find?_some h
  simp only [beq_iff_eq] at hp
  exact ⟨List.mem_reverse.mp hmem, hp⟩

theorem nodeMapLookup_eq_none_iff {nodes : List Node} {id : String} :
    nodeMapLookup nodes id = none ↔ ∀ n ∈ nodes, n.id ≠ id := by
  rw [nodeMapLookup_eq_find, List.find?_eq_none]
  simp

theorem nodeMapLookup_isSome_iff {nodes : List Node} {id : String} :
    (nodeMapLookup nodes id).isSome ↔ ∃ n ∈ nodes, n.id = id := by
  rcases h : nodeMapLookup nodes id with _ | n
  · simp only [Option.isSome_none, Bool.false_eq_true, false_iff]
    intro ⟨n, hn, hid⟩
    exact (nodeMapLookup_eq_none_iff.mp h) n hn hid
  · simp only [Option.isSome_some, true_iff]
    rcases nodeMapLookup_mem_and_id h with ⟨hmem, hid⟩
    exact ⟨n, hmem, hid⟩

/-! ### Shape of the steps emitted by one dispatch arm -/

/-- Every output map appended by a dispatch arm carries the elapsed-time
entry. -/
def hasDuration (st : StepResult) : Prop := "duration" ∈ st.output.map Prod.fst

theorem actionKeyed_halt_shape {key : String} {node : Node} {payload : ExecutePayload}
    {ctx : Ctx} {weatherFn : WeatherFn} {emailFn : EmailFn} {st : StepResult} {ctx' : Ctx}
    (h : processNodeActionKeyed key node payload ctx weatherFn emailFn = .halt st ctx') :
    st.nodeId = node.id ∧ st.status = StatusFailed ∧ hasDuration st := by
  unfold processNodeActionKeyed at h
  split_ifs at h <;> (try split at h) <;> (try split at h) <;>
    cases h <;> simp [appendStep, failOutput, hasDuration]

theorem actionKeyed_descend_shape {key : String} {node : Node} {payload : ExecutePayload}
    {ctx : Ctx} {weatherFn : WeatherFn} {emailFn : EmailFn} {sts : List StepResult} {ctx' : Ctx}
    (h : processNodeActionKeyed key node payload ctx weatherFn emailFn = .descend sts ctx') :
    sts = [] ∨ ∃ st, sts = [st] ∧ st.nodeId = node.id ∧ st.status = StatusCompleted
      ∧ hasDuration st := by
  unfold processNodeActionKeyed at h
  split_ifs at h <;> (try split at h) <;> (try split at h) <;> cases h <;>
    first
    | exact Or.inl rfl
    | exact Or.inr ⟨_, rfl, by simp [appendStep], by simp [appendStep],
        by simp [appendStep, hasDuration, emailOutput]⟩

theorem actionKeyed_branch_shape {key : String} {node : Node} {payload : ExecutePayload}
    {ctx : Ctx} {weatherFn : WeatherFn} {emailFn : EmailFn} {st : StepResult}
    {conditionMet : Bool} {ctx' : Ctx}
    (h : processNodeActionKeyed key node payload ctx weatherFn emailFn
        = .branch st conditionMet ctx') :
    st.nodeId = node.id ∧ st.status = StatusCompleted ∧ hasDuration st ∧ ctx' = ctx := by
  unfold processNodeActionKeyed at h
  split_ifs at h <;> (try split at h) <;> (try split at h) <;> cases h <;>
    (try exact ⟨by simp [appendStep], by simp [appendStep],
      by simp [appendStep, hasDuration], rfl⟩)

/-- A successful condition evaluation guarantees the context temperature
is present and is a float: the unchecked type assertion that follows it in
the condition arm cannot panic. -/
theorem processConditionNode_ok_float {node : Node} {payload : ExecutePayload}
    {contextData : Ctx} {b : Bool}
    (h : processConditionNode node payload contextData = .ok b) :
    ∃ q : ℚ, ctxLookup contextData "weather.temperature" = some (.float q) := by
  unfold processConditionNode at h
  split at h
  · cases h
  · split at h
    · exact ⟨_, by assumption⟩
    · cases h

/-! ### The traversal extension invariant

One `traverse` call only ever appends to the visited list, keeps it
duplicate-free, and emits at most one step per newly visited node, in
marking order, every step carrying the elapsed-time entry. -/

/-- The state and appended steps of a non-panicking, non-fuel outcome. -/
def stateOut : TravResult → Option (TravState × List StepResult)
  | .ok s out => some (s, out)
  | .fail _ s out => some (s, out)
  | .panicked => none
  | .outOfFuel => none

def durKeys (out : List StepResult) : Prop := ∀ st ∈ out, hasDuration st

/-- The extension invariant of a traversal outcome relative to the state
it started from. -/
def Ext (s : TravState) (r : TravResult) : Prop :=
  ∀ s' out, stateOut r = some (s', out) →
    ∃ newIds, s'.visited = s.visited ++ newIds ∧ s'.visited.Nodup ∧
      List.Sublist (out.map StepResult.nodeId) newIds ∧ durKeys out

/-- The step shape delivered by every dispatch arm of the code (and of the
spec's by-type variant): any emitted step names the dispatched node and
carries the elapsed-time entry, and a fall-through arm emits at most one
step. -/
def ActOk (act : Node → Ctx → NodeAction) : Prop :=
  ∀ node ctx,
    (∀ st ctx', act node ctx = .halt st ctx' → st.nodeId = node.id ∧ hasDuration st) ∧
    (∀ sts ctx', act node ctx = .descend sts ctx' →
      sts = [] ∨ ∃ st, sts = [st] ∧ st.nodeId = node.id ∧ hasDuration st) ∧
    (∀ st met ctx', act node ctx = .branch st met ctx' → st.nodeId = node.id ∧ hasDuration st)

theorem actionKeyed_actOk (payload : ExecutePayload) (weatherFn : WeatherFn)
    (emailFn : EmailFn) (key : Node → String) :
    ActOk (fun node ctx => processNodeActionKeyed (key node) node payload ctx weatherFn emailFn) := by
  intro node ctx
  refine ⟨?_, ?_, ?_⟩
  · intro st ctx' h
    rcases actionKeyed_halt_shape h with ⟨h1, _, h3⟩
    exact ⟨h1, h3⟩
  · intro sts ctx' h
    rcases actionKeyed_descend_shape h with h | ⟨st, h1, h2, _, h4⟩
    · exact Or.inl h
    · exact Or.inr ⟨st, h1, h2, h4⟩
  · intro st met ctx' h
    rcases actionKeyed_branch_shape h with ⟨h1, _, h3, _⟩
    exact ⟨h1, h3⟩

theorem codeAct_actOk (payload : ExecutePayload) (weatherFn : WeatherFn) (emailFn : EmailFn) :
    ActOk (codeAct payload weatherFn emailFn) :=
  actionKeyed_actOk payload weatherFn emailFn Node.id

theorem stateOut_withSteps (sts : List StepResult) (r : TravResult) :
    stateOut (withSteps sts r) = (stateOut r).map (fun p => (p.1, sts ++ p.2)) := by
  cases r <;> simp [withSteps, stateOut]

theorem Ext.step {s₁ : TravState} (s₂ : TravState) {ids1 : List String} {sts : List StepResult}
    {r : TravResult} (h₂ : s₂.visited = s₁.visited ++ ids1)
    (hmap : List.Sublist (sts.map StepResult.nodeId) ids1) (hdur : durKeys sts)
    (h : Ext s₂ r) : Ext s₁ (withSteps sts r) := by
  intro s' out hso
  rw [stateOut_withSteps] at hso
  rcases Option.map_eq_some'.mp hso with ⟨⟨s0, out0⟩, hr, heq⟩
  cases heq
  rcases h s0 out0 hr with ⟨newIds, e1, e2, e3, e4⟩
  refine ⟨ids1 ++ newIds, ?_, e2, ?_, ?_⟩
  · rw [e1, h₂, List.append_assoc]
  · rw [List.map_append]
    exact List.Sublist.append hmap e3
  · intro st hst
    rcases List.mem_append.mp hst with hst | hst
    · exact hdur st hst
    · exact e4 st hst

theorem ext_stay {s : TravState} (hnd : s.visited.Nodup) (r : TravResult)
    (hr : stateOut r = none ∨ ∃ e, r = .ok s [] ∨ r = .fail e s []) : Ext s r := by
  intro s' out hso
  rcases hr with hr | ⟨e, hr | hr⟩
  · rw [hr] at hso; cases hso
  all_goals
    subst hr
    cases hso
    exact ⟨[], by simp, by simpa using hnd, by simp, by intro st hst; cases hst⟩

theorem foldChildren_ext {tr : TravState → String → TravResult}
    (htr : ∀ s t, s.visited.Nodup → Ext s (tr s t)) :
    ∀ ts (s : TravState), s.visited.Nodup → Ext s (foldChildren tr s ts) := by
  intro ts
  induction ts with
  | nil =>
    intro s hnd
    exact ext_stay hnd _ (Or.inr ⟨.missingStartNode, Or.inl rfl⟩)
  | cons t rest ih =>
    intro s hnd
    unfold foldChildren
    rcases hr : tr s t with ⟨s1, out1⟩ | ⟨e, s1, out1⟩ | _ | _
    · have hext := htr s t hnd
      rcases hext s1 out1 (by rw [hr]; rfl) with ⟨ids1, e1, e2, e3, e4⟩
      exact Ext.step s1 e1 e3 e4 (ih s1 e2)
    · intro s' out hso
      exact htr s t hnd s' out (by rw [hr]; exact hso)
    · intro s' out hso; cases hso
    · intro s' out hso; cases hso

theorem traverse_ext (wf : WorkflowDefinition) {act : Node → Ctx → NodeAction}
    (hact : ActOk act) :
    ∀ fuel (s : TravState) id, s.visited.Nodup → Ext s (traverse wf act fuel s id) := by
  intro fuel
  induction fuel with
  | zero =>
    intro s id hnd
    exact ext_stay hnd _ (Or.inl rfl)
  | succ n ih =>
    intro s id hnd
    unfold traverse
    by_cases hv : s.visited.contains id
    · rw [if_pos hv]
      exact ext_stay hnd _ (Or.inr ⟨.missingStartNode, Or.inl rfl⟩)
    · rw [if_neg hv]
      have hid : id ∉ s.visited := by
        intro hmem
        exact hv (List.elem_eq_true_of_mem hmem)
      have hndv : (s.visited ++ [id]).Nodup := by
        rw [List.nodup_append]
        refine ⟨hnd, List.nodup_singleton id, ?_⟩
        intro a ha hb
        rw [List.mem_singleton] at hb
        subst hb
        exact hid ha
      rcases hlk : nodeMapLookup wf.nodes id with _ | node
      · simp only [hlk]
        intro s' out hso
        cases hso
        exact ⟨[id], rfl, hndv, by simp, by intro st hst; cases hst⟩
      · simp only [hlk]
        have hnodeid : node.id = id := (nodeMapLookup_mem_and_id hlk).2
        have hactn := hact node s.ctx
        rcases hA : act node s.ctx with ⟨st, ctx'⟩ | ⟨sts, ctx'⟩ | ⟨st, met, ctx'⟩ | _
        · -- halt
          rcases hactn.1 st ctx' hA with ⟨hstid, hstdur⟩
          intro s' out hso
          cases hso
          refine ⟨[id], rfl, hndv, ?_, ?_⟩
          · simp [hstid, hnodeid]
          · intro st' hst'
            rw [List.mem_singleton] at hst'
            subst hst'
            exact hstdur
        · -- descend
          have hmap : List.Sublist (sts.map StepResult.nodeId) [id] := by
            rcases hactn.2.1 sts ctx' hA with h | ⟨st, rfl, hstid, _⟩
            · subst h; simp
            · simp [hstid, hnodeid]
          have hdur : durKeys sts := by
            rcases hactn.2.1 sts ctx' hA with h | ⟨st, rfl, _, hstdur⟩
            · subst h; intro st hst; cases hst
            · intro st' hst'
              rw [List.mem_singleton] at hst'
              subst hst'
              exact hstdur
          exact Ext.step ⟨s.visited ++ [id], ctx'⟩ rfl hmap hdur
            (foldChildren_ext (fun s t h => ih s t h) _ _ hndv)
        · -- branch
          rcases hactn.2.2 st met ctx' hA with ⟨hstid, hstdur⟩
          have hmap : List.Sublist ([st].map StepResult.nodeId) [id] := by
            simp [hstid, hnodeid]
          have hdur : durKeys [st] := by
            intro st' hst'
            rw [List.mem_singleton] at hst'
            subst hst'
            exact hstdur
          rcases hfind : wf.edges.find? (condEdgeMatch node.id met) with _ | edge
          · simp only [hfind]
            exact Ext.step ⟨s.visited ++ [id], ctx'⟩ rfl hmap hdur
              (ext_stay hndv _ (Or.inr ⟨_, Or.inr rfl⟩))
          · simp only [hfind]
            exact Ext.step ⟨s.visited ++ [id], ctx'⟩ rfl hmap hdur
              (ih ⟨s.visited ++ [id], ctx'⟩ edge.target hndv)
        · -- panicked
          intro s' out hso
          cases hso

/-! ### Fuel adequacy: the fuel `wf.nodes.length + 1` supplied by
`processNodes` is never exhausted. -/

/-- Number of node ids not yet visited. -/
def unvisited (wf : WorkflowDefinition) (s : TravState) : Nat :=
  ((wf.nodes.map Node.id).toFinset \ s.visited.toFinset).card

theorem unvisited_mark {wf : WorkflowDefinition} {s : TravState} {id : String} (ctx' : Ctx)
    (hmem : id ∈ wf.nodes.map Node.id) (hid : id ∉ s.visited) :
    unvisited wf ⟨s.visited ++ [id], ctx'⟩ < unvisited wf s := by
  unfold unvisited
  apply Finset.card_lt_card
  have hsub : ((wf.nodes.map Node.id).toFinset \ (s.visited ++ [id]).toFinset)
      ⊆ ((wf.nodes.map Node.id).toFinset \ s.visited.toFinset) := by
    apply Finset.sdiff_subset_sdiff (le_refl _)
    intro x hx
    rw [List.mem_toFinset] at hx ⊢
    exact List.mem_append_left _ hx
  rw [Finset.ssubset_iff_of_subset hsub]
  refine ⟨id, ?_, ?_⟩
  · rw [Finset.mem_sdiff, List.mem_toFinset, List.mem_toFinset]
    exact ⟨hmem, hid⟩
  · rw [Finset.mem_sdiff, List.mem_toFinset, List.mem_toFinset]
    intro ⟨_, hcon⟩
    exact hcon (List.mem_append_right _ (List.mem_singleton_self id))

theorem unvisited_mono {wf : WorkflowDefinition} {s s' : TravState}
    (h : ∃ newIds, s'.visited = s.visited ++ newIds) :
    unvisited wf s' ≤ unvisited wf s := by
  rcases h with ⟨newIds, h⟩
  unfold unvisited
  apply Finset.card_le_card
  apply Finset.sdiff_subset_sdiff (le_refl _)
  intro x hx
  rw [List.mem_toFinset] at hx ⊢
  rw [h]
  exact List.mem_append_left _ hx

theorem withSteps_eq_outOfFuel {sts : List StepResult} {r : TravResult} :
    withSteps sts r = .outOfFuel ↔ r = .outOfFuel := by
  cases r <;> simp [withSteps]

theorem withSteps_eq_panicked {sts : List StepResult} {r : TravResult} :
    withSteps sts r = .panicked ↔ r = .panicked := by
  cases r <;> simp [withSteps]

theorem foldChildren_no_outOfFuel {wf : WorkflowDefinition}
    {tr : TravState → String → TravResult}
    (htrext : ∀ s t, s.visited.Nodup → Ext s (tr s t))
    (htrno : ∀ (s : TravState) t, s.visited.Nodup → unvisited wf s < n → tr s t ≠ .outOfFuel) :
    ∀ ts (s : TravState), s.visited.Nodup → unvisited wf s < n →
      foldChildren tr s ts ≠ .outOfFuel := by
  intro ts
  induction ts with
  | nil =>
    intro s _ _ h
    cases h
  | cons t rest ih =>
    intro s hnd hlt
    unfold foldChildren
    rcases hr : tr s t with ⟨s1, out1⟩ | ⟨e, s1, out1⟩ | _ | _
    · dsimp only
      simp only [ne_eq, withSteps_eq_outOfFuel]
      rcases (htrext s t hnd) s1 out1 (by rw [hr]; rfl) with ⟨ids1, e1, e2, _, _⟩
      exact ih s1 e2 (lt_of_le_of_lt (unvisited_mono ⟨ids1, e1⟩) hlt)
    · intro h; cases h
    · intro h; cases h
    · exact absurd hr (htrno s t hnd hlt)

theorem traverse_no_outOfFuel {wf : WorkflowDefinition} {act : Node → Ctx → NodeAction}
    (hact : ActOk act) :
    ∀ fuel (s : TravState) id, s.visited.Nodup → unvisited wf s < fuel →
      traverse wf act fuel s id ≠ .outOfFuel := by
  intro fuel
  induction fuel with
  | zero =>
    intro s id _ hlt
    exact absurd hlt (Nat.not_lt_zero _)
  | succ n ih =>
    intro s id hnd hlt
    unfold traverse
    by_cases hv : s.visited.contains id
    · rw [if_pos hv]
      intro h; cases h
    · rw [if_neg hv]
      have hid : id ∉ s.visited := by
        intro hmem
        exact hv (List.elem_eq_true_of_mem hmem)
      have hndv : (s.visited ++ [id]).Nodup := by
        rw [List.nodup_append]
        refine ⟨hnd, List.nodup_singleton id, ?_⟩
        intro a ha hb
        rw [List.mem_singleton] at hb
        subst hb
        exact hid ha
      rcases hlk : nodeMapLookup wf.nodes id with _ | node
      · simp only [hlk]
        intro h; cases h
      · simp only [hlk]
        have hmem : id ∈ wf.nodes.map Node.id := by
          rcases nodeMapLookup_mem_and_id hlk with ⟨h1, h2⟩
          exact List.mem_map.mpr ⟨node, h1, h2⟩
        have hmark : ∀ ctx' : Ctx, unvisited wf ⟨s.visited ++ [id], ctx'⟩ < n := by
          intro ctx'
          have := unvisited_mark ctx' hmem hid
          omega
        rcases hA : act node s.ctx with ⟨st, ctx'⟩ | ⟨sts, ctx'⟩ | ⟨st, met, ctx'⟩ | _
        · intro h; cases h
        · dsimp only
          simp only [ne_eq, withSteps_eq_outOfFuel]
          exact foldChildren_no_outOfFuel (fun s t h => traverse_ext wf hact n s t h)
            (fun s t h1 h2 => ih s t h1 h2) _ _ hndv (hmark ctx')
        · dsimp only
          simp only [ne_eq, withSteps_eq_outOfFuel]
          rcases hfind : wf.edges.find? (condEdgeMatch node.id met) with _ | edge
          · simp only [hfind]
            intro h; cases h
          · simp only [hfind]
            exact ih _ edge.target hndv (hmark ctx')
        · intro h; cases h

/-! ### Panic-freedom away from a template-less reachable email node -/

/-- The precondition for totality: if the node map contains an email node,
it carries an email template. -/
def EmailGuard (wf : WorkflowDefinition) : Prop :=
  ∀ n, nodeMapLookup wf.nodes EmailNodeID = some n → n.data.metadata.emailTemplate ≠ none

theorem codeAct_no_panic {wf : WorkflowDefinition} {payload : ExecutePayload}
    {weatherFn : WeatherFn} {emailFn : EmailFn} {id : String} {node : Node} {ctx : Ctx}
    (hg : EmailGuard wf) (hlk : nodeMapLookup wf.nodes id = some node) :
    codeAct payload weatherFn emailFn node ctx ≠ .panicked := by
  have hnodeid : node.id = id := (nodeMapLookup_mem_and_id hlk).2
  unfold codeAct processNodeAction processNodeActionKeyed
  intro h
  split_ifs at h with h1 h2 h3 h4 h5 h6 <;> (try split at h) <;> (try split at h) <;>
    try cases h
  -- two arms survive: the unchecked float assertion in the condition arm
  -- (ruled out by the successful evaluation) and the template dereference
  -- in the email arm (ruled out by the guard)
  all_goals
    first
    | (rename_i hexc
       rcases processConditionNode_ok_float (by assumption) with ⟨q, hq⟩
       exact hexc q hq)
    | (rename_i htmpl
       rw [hnodeid] at h6
       rw [h6] at hlk
       exact (hg node hlk) htmpl)

theorem foldChildren_no_panicked {tr : TravState → String → TravResult}
    (htrno : ∀ (s : TravState) t, tr s t ≠ .panicked) :
    ∀ ts (s : TravState), foldChildren tr s ts ≠ .panicked := by
  intro ts
  induction ts with
  | nil =>
    intro s h
    cases h
  | cons t rest ih =>
    intro s
    unfold foldChildren
    rcases hr : tr s t with ⟨s1, out1⟩ | ⟨e, s1, out1⟩ | _ | _
    · dsimp only
      simp only [ne_eq, withSteps_eq_panicked]
      exact ih s1
    · intro h; cases h
    · exact absurd hr (htrno s t)
    · intro h; cases h

theorem traverse_no_panicked {wf : WorkflowDefinition} {payload : ExecutePayload}
    {weatherFn : WeatherFn} {emailFn : EmailFn} (hg : EmailGuard wf) :
    ∀ fuel (s : TravState) id,
      traverse wf (codeAct payload weatherFn emailFn) fuel s id ≠ .panicked := by
  intro fuel
  induction fuel with
  | zero =>
    intro s id h
    cases h
  | succ n ih =>
    intro s id
    unfold traverse
    by_cases hv : s.visited.contains id
    · rw [if_pos hv]
      intro h; cases h
    · rw [if_neg hv]
      rcases hlk : nodeMapLookup wf.nodes id with _ | node
      · simp only [hlk]
        intro h; cases h
      · simp only [hlk]
        rcases hA : codeAct payload weatherFn emailFn node s.ctx
          with ⟨st, ctx'⟩ | ⟨sts, ctx'⟩ | ⟨st, met, ctx'⟩ | _
        · intro h; cases h
        · dsimp only
          simp only [ne_eq, withSteps_eq_panicked]
          exact foldChildren_no_panicked (fun s t => ih s t) _ _
        · dsimp only
          simp only [ne_eq, withSteps_eq_panicked]
          rcases hfind : wf.edges.find? (condEdgeMatch node.id met) with _ | edge
          · simp only [hfind]
            intro h; cases h
          · simp only [hfind]
            exact ih _ edge.target
        · exact absurd hA (codeAct_no_panic hg hlk)

/-! ### Shape of a `noMatchingCondEdge` failure: the appended steps end
with the condition node's own completed step. -/

/-- When a traversal outcome is the `noMatchingCondEdge` routing failure,
the steps it carries end with a completed step for the failing node. -/
def FailShape (r : TravResult) : Prop :=
  ∀ cid s' out, r = .fail (.noMatchingCondEdge cid) s' out →
    ∃ sts st, out = sts ++ [st] ∧ st.nodeId = cid ∧ st.status = StatusCompleted

theorem FailShape.withSteps {r : TravResult} (h : FailShape r) (sts : List StepResult) :
    FailShape (withSteps sts r) := by
  intro cid s' out heq
  cases r with
  | fail e s0 out0 =>
    simp only [Workflow.withSteps] at heq
    injection heq with h1 h2 h3
    subst h1
    subst h2
    subst h3
    rcases h cid s0 out0 rfl with ⟨pre, st, hpre, hid, hst⟩
    exact ⟨sts ++ pre, st, by rw [hpre, List.append_assoc], hid, hst⟩
  | ok s0 out0 => simp only [Workflow.withSteps] at heq; cases heq
  | panicked => simp only [Workflow.withSteps] at heq; cases heq
  | outOfFuel => simp only [Workflow.withSteps] at heq; cases heq

/-- Every step a `branch` arm of the code's (or the by-type) dispatch emits
is a completed step. -/
def ActBranchCompleted (act : Node → Ctx → NodeAction) : Prop :=
  ∀ node ctx st met ctx', act node ctx = .branch st met ctx' → st.status = StatusCompleted

theorem actionKeyed_branchCompleted (payload : ExecutePayload) (weatherFn : WeatherFn)
    (emailFn : EmailFn) (key : Node → String) :
    ActBranchCompleted
      (fun node ctx => processNodeActionKeyed (key node) node payload ctx weatherFn emailFn) := by
  intro node ctx st met ctx' h
  exact (actionKeyed_branch_shape h).2.1

theorem foldChildren_failShape {tr : TravState → String → TravResult}
    (htr : ∀ s t, FailShape (tr s t)) :
    ∀ ts (s : TravState), FailShape (foldChildren tr s ts) := by
  intro ts
  induction ts with
  | nil =>
    intro s cid s' out heq
    cases heq
  | cons t rest ih =>
    intro s
    unfold foldChildren
    rcases hr : tr s t with ⟨s1, out1⟩ | ⟨e, s1, out1⟩ | _ | _
    · exact (ih s1).withSteps out1
    · intro cid s' out heq
      exact htr s t cid s' out (by rw [hr]; exact heq)
    · intro cid s' out heq; cases heq
    · intro cid s' out heq; cases heq

theorem traverse_failShape {wf : WorkflowDefinition} {act : Node → Ctx → NodeAction}
    (hact : ActOk act) (hbr : ActBranchCompleted act) :
    ∀ fuel (s : TravState) id, FailShape (traverse wf act fuel s id) := by
  intro fuel
  induction fuel with
  | zero =>
    intro s id cid s' out heq
    cases heq
  | succ n ih =>
    intro s id
    unfold traverse
    by_cases hv : s.visited.contains id
    · rw [if_pos hv]
      intro cid s' out heq; cases heq
    · rw [if_neg hv]
      rcases hlk : nodeMapLookup wf.nodes id with _ | node
      · simp only [hlk]
        intro cid s' out heq
        injection heq with h1
        cases h1
      · simp only [hlk]
        rcases hA : act node s.ctx with ⟨st, ctx'⟩ | ⟨sts, ctx'⟩ | ⟨st, met, ctx'⟩ | _
        · intro cid s' out heq; cases heq
        · dsimp only
          exact (foldChildren_failShape (fun s t => ih s t) _ _).withSteps sts
        · dsimp only
          rcases hfind : wf.edges.find? (condEdgeMatch node.id met) with _ | edge
          · simp only [hfind]
            intro cid s' out heq
            simp only [Workflow.withSteps] at heq
            injection heq with h1 h2 h3
            injection h1 with h1
            subst h1
            subst h3
            exact ⟨[], st, by simp, ((hact node s.ctx).2.2 st met ctx' hA).1,
              hbr node s.ctx st met ctx' hA⟩
          · simp only [hfind]
            exact (ih _ edge.target).withSteps [st]
        · intro cid s' out heq; cases heq

/-! ### Dispatch ignores the type discriminator (claim C2) -/

/-- Erase a step's echoed `type` field (the only place the node's type
discriminator can reach the result). -/
def eraseStepType (st : StepResult) : StepResult := { st with type := "" }

def eraseActionTypes : NodeAction → NodeAction
  | .halt st c => .halt (eraseStepType st) c
  | .descend sts c => .descend (sts.map eraseStepType) c
  | .branch st m c => .branch (eraseStepType st) m c
  | .panicked => .panicked

def eraseResultTypes : TravResult → TravResult
  | .ok s out => .ok s (out.map eraseStepType)
  | .fail e s out => .fail e s (out.map eraseStepType)
  | .panicked => .panicked
  | .outOfFuel => .outOfFuel

def eraseOutcomeTypes : ProcessOutcome → ProcessOutcome
  | .ret (some r) e => .ret (some { r with steps := r.steps.map eraseStepType }) e
  | o => o

/-- Rewrite every node's type discriminator (and nothing else). -/
def retypeNode (f : Node → String) (n : Node) : Node := { n with type := f n }

def retypeWf (f : Node → String) (wf : WorkflowDefinition) : WorkflowDefinition :=
  { wf with nodes := wf.nodes.map (retypeNode f) }

theorem nodeMapLookup_retype {f : Node → String} {nodes : List Node} {id : String} :
    nodeMapLookup (nodes.map (retypeNode f)) id
      = Option.map (retypeNode f) (nodeMapLookup nodes id) := by
  rw [nodeMapLookup_eq_find, nodeMapLookup_eq_find, ← List.map_reverse, List.find?_map]
  rfl

theorem eraseResultTypes_withSteps (sts : List StepResult) (r : TravResult) :
    eraseResultTypes (withSteps sts r)
      = withSteps (sts.map eraseStepType) (eraseResultTypes r) := by
  cases r <;> simp [withSteps, eraseResultTypes]

theorem action_retype {f : Node → String} (node : Node) {payload : ExecutePayload}
    (ctx : Ctx) {weatherFn : WeatherFn} {emailFn : EmailFn}
    (hw : ∀ n c, weatherFn (retypeNode f n) payload c = weatherFn n payload c)
    (he : ∀ n, emailFn (retypeNode f n) payload = emailFn n payload) :
    eraseActionTypes (processNodeAction (retypeNode f node) payload ctx weatherFn emailFn)
      = eraseActionTypes (processNodeAction node payload ctx weatherFn emailFn) := by
  unfold processNodeAction processNodeActionKeyed
  have hid : (retypeNode f node).id = node.id := rfl
  have hdata : (retypeNode f node).data = node.data := rfl
  have hform : processFormNode (retypeNode f node) payload = processFormNode node payload := rfl
  have hcond : processConditionNode (retypeNode f node) payload ctx
      = processConditionNode node payload ctx := rfl
  have hstart : processStartNode (retypeNode f node) = processStartNode node := rfl
  have hend : processEndNode (retypeNode f node) = processEndNode node := rfl
  rw [hid, hw, he, hdata, hform, hcond, hstart, hend]
  split_ifs <;>
    (try split) <;>
    (try split) <;>
    simp [eraseActionTypes, eraseStepType, appendStep, retypeNode, emailOutput]

theorem foldChildren_erase {tr1 tr2 : TravState → String → TravResult}
    (h : ∀ s t, eraseResultTypes (tr1 s t) = eraseResultTypes (tr2 s t)) :
    ∀ ts (s : TravState),
      eraseResultTypes (foldChildren tr1 s ts) = eraseResultTypes (foldChildren tr2 s ts) := by
  intro ts
  induction ts with
  | nil => intro s; rfl
  | cons t rest ih =>
    intro s
    unfold foldChildren
    have hst := h s t
    rcases hr2 : tr2 s t with ⟨s2, out2⟩ | ⟨e2, s2, out2⟩ | _ | _ <;>
      rcases hr1 : tr1 s t with ⟨s1, out1⟩ | ⟨e1, s1, out1⟩ | _ | _ <;>
        rw [hr1, hr2] at hst <;> simp only [eraseResultTypes] at hst <;>
      first
      | (injection hst with hE hs ho
         subst hE
         subst hs
         dsimp only
         simp only [eraseResultTypes, ho])
      | (injection hst with hs ho
         subst hs
         dsimp only
         rw [eraseResultTypes_withSteps, eraseResultTypes_withSteps, ho, ih])
      | rfl
      | cases hst

theorem traverse_retype {f : Node → String} (wf : WorkflowDefinition)
    {payload : ExecutePayload} {weatherFn : WeatherFn} {emailFn : EmailFn}
    (hw : ∀ n c, weatherFn (retypeNode f n) payload c = weatherFn n payload c)
    (he : ∀ n, emailFn (retypeNode f n) payload = emailFn n payload) :
    ∀ fuel (s : TravState) id,
      eraseResultTypes (traverse (retypeWf f wf) (codeAct payload weatherFn emailFn) fuel s id)
        = eraseResultTypes (traverse wf (codeAct payload weatherFn emailFn) fuel s id) := by
  intro fuel
  induction fuel with
  | zero => intro s id; rfl
  | succ n ih =>
    intro s id
    unfold traverse
    by_cases hv : s.visited.contains id
    · rw [if_pos hv, if_pos hv]
    · rw [if_neg hv, if_neg hv]
      have hedges : (retypeWf f wf).edges = wf.edges := rfl
      have hlkr : nodeMapLookup (retypeWf f wf).nodes id
          = Option.map (retypeNode f) (nodeMapLookup wf.nodes id) := nodeMapLookup_retype
      rcases hlk : nodeMapLookup wf.nodes id with _ | node
      · rw [hlk] at hlkr
        simp only [hlk, hlkr, Option.map_none']
      · rw [hlk] at hlkr
        simp only [hlk, hlkr, Option.map_some']
        have hAe := action_retype node s.ctx hw he
        rcases hA : processNodeAction node payload s.ctx weatherFn emailFn
          with ⟨st, ctx'⟩ | ⟨sts, ctx'⟩ | ⟨st, met, ctx'⟩ | _ <;>
          rw [hA] at hAe <;>
          rcases hA1 : processNodeAction (retypeNode f node) payload s.ctx weatherFn emailFn
            with ⟨st1, ctx1⟩ | ⟨sts1, ctx1⟩ | ⟨st1, met1, ctx1⟩ | _ <;>
          rw [hA1] at hAe <;>
          simp only [eraseActionTypes] at hAe <;>
          simp only [codeAct] <;>
          rw [hA, hA1] <;>
          try cases hAe
          -- the four matching-constructor cases remain
        · -- halt
          injection hAe with h1 h2
          subst h2
          dsimp only [eraseResultTypes]
          rw [List.map_singleton, List.map_singleton, h1]
        · -- descend
          injection hAe with h1 h2
          subst h2
          dsimp only
          rw [eraseResultTypes_withSteps, eraseResultTypes_withSteps, h1, hedges]
          rw [foldChildren_erase (fun s t => ih s t)]
        · -- branch
          injection hAe with h1 h2 h3
          subst h2
          subst h3
          dsimp only
          rw [eraseResultTypes_withSteps, eraseResultTypes_withSteps, hedges]
          have hidr : (retypeNode f node).id = node.id := rfl
          rw [hidr, List.map_singleton, List.map_singleton, h1]
          rcases hfind : wf.edges.find? (condEdgeMatch node.id met1) with _ | edge <;>
            simp only [hfind]
          rw [ih]

/-- `withSteps` with no steps to prepend is the identity. -/
theorem withSteps_nil (r : TravResult) : withSteps [] r = r := by
  cases r <;> simp [withSteps]

/-! ### Concrete fixtures used by witnesses and counterexamples -/

/-- A node with empty metadata. -/
def mkNode (id ty label description : String) : Node :=
  ⟨id, ty, ⟨label, description, ⟨none, ""⟩⟩⟩

def mkEdge (source target label : String) : Edge := ⟨source, target, label⟩

/-- A substituted weather handler that succeeds without touching the
context (the weather node is not exercised). -/
def trivialWeatherFn : WeatherFn := fun _ _ ctx => (ctx, none)

/-- A substituted email handler that succeeds (like the default). -/
def trivialEmailFn : EmailFn := fun _ _ => none

/-- The mocked weather handler of the unit tests: writes temperature 21.0
into the context and succeeds. -/
def mockWeather21 : WeatherFn :=
  fun _ _ ctx => (ctxInsert ctx "weather.temperature" (.float 21), none)

/-! ### Claims -/

/-- C4: Condition evaluation is a pure function of
(operator, threshold, temperature) with the five operators of standard
semantics, inclusive at the boundary for `equals` and the `_or_equal`
forms — in particular equals/21.0/21.0 → true, greater_than/20/15.5 →
false, greater_than_or_equal/15.5/15.5 → true, less_than/10/15.5 → false —
and `processConditionNode` fails exactly when the context temperature is
absent, present but not a float, or the operator is none of the five
recognized names. -/
theorem C4_condition_pure_eval :
    (∀ (node : Node) (fd : FormData),
      processConditionNode node ⟨fd, ⟨"equals", 21⟩⟩
          [("weather.temperature", .float 21)] = .ok true
      ∧ processConditionNode node ⟨fd, ⟨"greater_than", 20⟩⟩
          [("weather.temperature", .float 15.5)] = .ok false
      ∧ processConditionNode node ⟨fd, ⟨"greater_than_or_equal", 15.5⟩⟩
          [("weather.temperature", .float 15.5)] = .ok true
      ∧ processConditionNode node ⟨fd, ⟨"less_than", 10⟩⟩
          [("weather.temperature", .float 15.5)] = .ok false)
    ∧ (∀ (node : Node) (payload : ExecutePayload) (ctx : Ctx),
      (∃ e, processConditionNode node payload ctx = .error e) ↔
        (ctxLookup ctx "weather.temperature" = none
          ∨ (∃ v, ctxLookup ctx "weather.temperature" = some v ∧ ∀ q : ℚ, v ≠ .float q)
          ∨ payload.condition.operator ∉
              (["greater_than", "less_than", "equals", "greater_than_or_equal",
                "less_than_or_equal"] : List String))) := by
  constructor
  · intro node fd
    refine ⟨rfl, ?_, ?_, ?_⟩
    · norm_num [processConditionNode, ctxLookup]
    · norm_num [processConditionNode, ctxLookup]
      rw [if_neg (by decide), if_neg (by decide)]
    · norm_num [processConditionNode, ctxLookup]
      decide
  · intro node payload ctx
    unfold processConditionNode
    rcases hlk : ctxLookup ctx "weather.temperature" with _ | v
    · simp [hlk]
    · cases v with
      | float q =>
        dsimp only
        split_ifs with h1 h2 h3 h4 h5 <;> simp_all [hlk]
      | str s => simp [hlk]
      | int n => simp [hlk]
      | bool b => simp [hlk]
      | null => simp [hlk]
      | obj fields => simp [hlk]

/-- Witness for C4: the error characterization applied at a concrete
unrecognized operator. -/
theorem C4_condition_pure_eval_witness :
    ∃ e, processConditionNode (mkNode "condition" "condition" "" "")
      ⟨⟨"", "", ""⟩, ⟨"unsupported", 10⟩⟩
      [("weather.temperature", GoValue.float 15.5)] = .error e :=
  (C4_condition_pure_eval.2 (mkNode "condition" "condition" "" "")
    ⟨⟨"", "", ""⟩, ⟨"unsupported", 10⟩⟩ [("weather.temperature", GoValue.float 15.5)]).mpr
    (Or.inr (Or.inr (by decide)))

/-- C6: `processFormNode` returns a distinct named error for each of the
three empty-field cases — empty name, empty email, empty city — and
returns no error exactly when all three of name, email, and city in the
payload's form data are non-empty. -/
theorem C6_form_validation (node : Node) (payload : ExecutePayload) :
    (processFormNode node payload = none ↔
      payload.formData.name ≠ "" ∧ payload.formData.email ≠ "" ∧ payload.formData.city ≠ "")
    ∧ (payload.formData.name = "" →
        processFormNode node payload = some .missingFormFieldName)
    ∧ (payload.formData.name ≠ "" → payload.formData.email = "" →
        processFormNode node payload = some .missingFormFieldEmail)
    ∧ (payload.formData.name ≠ "" → payload.formData.email ≠ "" →
        payload.formData.city = "" →
        processFormNode node payload = some .missingFormFieldCity)
    ∧ (WfError.missingFormFieldName ≠ WfError.missingFormFieldEmail
        ∧ WfError.missingFormFieldName ≠ WfError.missingFormFieldCity
        ∧ WfError.missingFormFieldEmail ≠ WfError.missingFormFieldCity
        ∧ WfError.missingFormFieldName.message ≠ WfError.missingFormFieldEmail.message
        ∧ WfError.missingFormFieldName.message ≠ WfError.missingFormFieldCity.message
        ∧ WfError.missingFormFieldEmail.message ≠ WfError.missingFormFieldCity.message) := by
  refine ⟨?_, ?_, ?_, ?_, by decide⟩ <;> unfold processFormNode
  · split_ifs <;> simp_all
  · intro h
    simp [h]
  · intro h1 h2
    simp [h1, h2]
  · intro h1 h2 h3
    simp [h1, h2, h3]

/-- Witness for C6 at a concrete payload with an empty name. -/
theorem C6_form_validation_witness :
    processFormNode (mkNode "form" "form" "" "")
      ⟨⟨"", "alice@example.com", "Sydney"⟩, ⟨"equals", 0⟩⟩ = some .missingFormFieldName :=
  (C6_form_validation (mkNode "form" "form" "" "")
    ⟨⟨"", "alice@example.com", "Sydney"⟩, ⟨"equals", 0⟩⟩).2.1 rfl

/-- C8: For every payload (and substituted handlers), a workflow of
exactly a start node and an end node joined by one edge from start to end
completes: no error, overall status "completed", exactly 2 steps, both
"completed". -/
theorem C8_minimal_workflow (payload : ExecutePayload) (weatherFn : WeatherFn)
    (emailFn : EmailFn) (wid : String) (sN eN : Node) (edge : Edge)
    (hs : sN.id = StartNodeID) (he : eN.id = EndNodeID)
    (hsrc : edge.source = StartNodeID) (htgt : edge.target = EndNodeID) :
    ∃ r, processNodes ⟨wid, [sN, eN], [edge]⟩ payload weatherFn emailFn = .ret (some r) none
      ∧ r.status = StatusCompleted ∧ r.steps.length = 2
      ∧ ∀ st ∈ r.steps, st.status = StatusCompleted := by
  obtain ⟨sid, sty, sdat⟩ := sN
  obtain ⟨eid, ety, edat⟩ := eN
  obtain ⟨esrc, etgt, elbl⟩ := edge
  simp only at hs he hsrc htgt
  subst hs
  subst he
  subst hsrc
  subst htgt
  refine ⟨⟨"", StatusCompleted,
    [appendStep ⟨StartNodeID, sty, sdat⟩ StatusCompleted [("duration", durationVal)],
     appendStep ⟨EndNodeID, ety, edat⟩ StatusCompleted [("duration", durationVal)]]⟩,
    rfl, rfl, rfl, ?_⟩
  intro st hst
  simp only [List.mem_cons, List.not_mem_nil, or_false] at hst
  rcases hst with rfl | rfl <;> rfl

/-- Witness for C8 at a concrete minimal workflow. -/
theorem C8_minimal_workflow_witness :
    ∃ r, processNodes ⟨"wf-min", [mkNode StartNodeID "start" "Start" "Begin",
        mkNode EndNodeID "end" "End" "Finish"],
        [mkEdge StartNodeID EndNodeID ""]⟩
        ⟨⟨"", "", ""⟩, ⟨"", 0⟩⟩ trivialWeatherFn trivialEmailFn = .ret (some r) none
      ∧ r.status = StatusCompleted ∧ r.steps.length = 2
      ∧ ∀ st ∈ r.steps, st.status = StatusCompleted :=
  C8_minimal_workflow ⟨⟨"", "", ""⟩, ⟨"", 0⟩⟩ trivialWeatherFn trivialEmailFn "wf-min"
    (mkNode StartNodeID "start" "Start" "Begin") (mkNode EndNodeID "end" "End" "Finish")
    (mkEdge StartNodeID EndNodeID "") rfl rfl rfl rfl

/-- Counterexample for C5: a workflow with an empty node list contains no
node with the canonical end id, yet `processNodes` returns the
missing-start error, not the missing-end error the claim promises for
every workflow lacking the end id. -/
theorem C5_missing_end_counterexample :
    processNodes ⟨"wf-empty", [], []⟩ ⟨⟨"", "", ""⟩, ⟨"", 0⟩⟩
        trivialWeatherFn trivialEmailFn = .ret none (some .missingStartNode)
    ∧ WfError.missingStartNode ≠ WfError.missingEndNode
    ∧ WfError.missingStartNode.message ≠ WfError.missingEndNode.message :=
  ⟨rfl, by decide, by decide⟩

/-- C5 (amended): a workflow with no start node returns the missing-start
error and a nil result; a workflow that does contain a start node but no
end node returns the missing-end error and a nil result; in both cases the
validation happens before any node is executed (no partial result). -/
theorem C5_missing_start_end (wf : WorkflowDefinition) (payload : ExecutePayload)
    (weatherFn : WeatherFn) (emailFn : EmailFn) :
    ((∀ n ∈ wf.nodes, n.id ≠ StartNodeID) →
      processNodes wf payload weatherFn emailFn = .ret none (some .missingStartNode))
    ∧ ((∃ n ∈ wf.nodes, n.id = StartNodeID) → (∀ n ∈ wf.nodes, n.id ≠ EndNodeID) →
      processNodes wf payload weatherFn emailFn = .ret none (some .missingEndNode)) := by
  constructor
  · intro h
    unfold processNodes processNodesWith
    rw [if_pos (by rw [Option.isNone_iff_eq_none]; exact nodeMapLookup_eq_none_iff.mpr h)]
  · intro hstart hend
    unfold processNodes processNodesWith
    rw [if_neg, if_pos (by rw [Option.isNone_iff_eq_none]; exact nodeMapLookup_eq_none_iff.mpr hend)]
    rw [Option.isNone_iff_eq_none]
    intro hno
    rcases hstart with ⟨n, hn, hid⟩
    exact (nodeMapLookup_eq_none_iff.mp hno) n hn hid

/-- Witness for C5 at concrete workflows. -/
theorem C5_missing_start_end_witness :
    processNodes ⟨"wf-noStart", [mkNode EndNodeID "end" "End" "Finish"], []⟩
        ⟨⟨"", "", ""⟩, ⟨"", 0⟩⟩ trivialWeatherFn trivialEmailFn
      = .ret none (some .missingStartNode)
    ∧ processNodes ⟨"wf-noEnd", [mkNode StartNodeID "start" "Start" "Begin"], []⟩
        ⟨⟨"", "", ""⟩, ⟨"", 0⟩⟩ trivialWeatherFn trivialEmailFn
      = .ret none (some .missingEndNode) :=
  ⟨(C5_missing_start_end _ _ _ _).1
    (by
      intro n hn
      simp only [List.mem_cons, List.not_mem_nil, or_false] at hn
      subst hn
      decide),
   (C5_missing_start_end _ _ _ _).2
    ⟨mkNode StartNodeID "start" "Start" "Begin", List.mem_cons_self _ _, rfl⟩
    (by
      intro n hn
      simp only [List.mem_cons, List.not_mem_nil, or_false] at hn
      subst hn
      decide)⟩

/-- C9: a node present in the node map whose id is none of the six
canonical identifiers gets no handler invocation and no StepResult, yet
traversal still descends into all its outgoing edge targets in
edge-declaration order (`adjTargets` preserves declaration order): a
silent pass-through, not an error. -/
theorem C9_unknown_node_passthrough (wf : WorkflowDefinition) (payload : ExecutePayload)
    (weatherFn : WeatherFn) (emailFn : EmailFn) (fuel : Nat) (s : TravState) (id : String)
    (node : Node) (hv : s.visited.contains id = false)
    (hlk : nodeMapLookup wf.nodes id = some node)
    (hmem : id ∉ ([StartNodeID, EndNodeID, FormNodeID, WeatherAPINodeID,
        ConditionNodeID, EmailNodeID] : List String)) :
    traverse wf (codeAct payload weatherFn emailFn) (fuel + 1) s id
      = foldChildren (traverse wf (codeAct payload weatherFn emailFn) fuel)
          ⟨s.visited ++ [id], s.ctx⟩ (adjTargets wf.edges id) := by
  have hnodeid : node.id = id := (nodeMapLookup_mem_and_id hlk).2
  simp only [List.mem_cons, List.not_mem_nil, or_false, not_or] at hmem
  obtain ⟨hm1, hm2, hm3, hm4, hm5, hm6⟩ := hmem
  unfold traverse
  rw [if_neg (by rw [hv]; intro hcon; cases hcon)]
  simp only [hlk]
  have hA : codeAct payload weatherFn emailFn node s.ctx = .descend [] s.ctx := by
    unfold codeAct processNodeAction processNodeActionKeyed
    rw [hnodeid]
    rw [if_neg hm1, if_neg hm2, if_neg hm3, if_neg hm4, if_neg hm5, if_neg hm6]
  rw [hA]
  exact withSteps_nil _

/-- Witness for C9: a node with the unknown id "mystery" passes control
straight to its successor. -/
theorem C9_unknown_node_passthrough_witness :
    traverse ⟨"wf-myst", [mkNode "mystery" "mystery" "" "", mkNode StartNodeID "start" "" "",
        mkNode EndNodeID "end" "" ""], [mkEdge "mystery" EndNodeID ""]⟩
      (codeAct ⟨⟨"", "", ""⟩, ⟨"", 0⟩⟩ trivialWeatherFn trivialEmailFn) 3 ⟨[], []⟩ "mystery"
      = foldChildren
          (traverse ⟨"wf-myst", [mkNode "mystery" "mystery" "" "", mkNode StartNodeID "start" "" "",
              mkNode EndNodeID "end" "" ""], [mkEdge "mystery" EndNodeID ""]⟩
            (codeAct ⟨⟨"", "", ""⟩, ⟨"", 0⟩⟩ trivialWeatherFn trivialEmailFn) 2)
          ⟨[] ++ ["mystery"], []⟩
          (adjTargets [mkEdge "mystery" EndNodeID ""] "mystery") :=
  C9_unknown_node_passthrough _ _ _ _ 2 ⟨[], []⟩ "mystery"
    (mkNode "mystery" "mystery" "" "") rfl rfl (by decide)

/-- C1 (code bug): evaluating `processNodes` at a fan-out workflow
(start → form, start → end) whose payload has an empty name.  The form
handler fails and a failed StepResult with the error message and the
elapsed-time entry is recorded, but — contrary to the claim, the spec
(§4.4 step 4) and the repository's own README ("if a node fails, its
error is reported and the workflow halts immediately, skipping any
remaining nodes") — the sibling end node is still visited afterwards, the
returned error is nil, and the overall status is "completed", because the
dispatch arm does `return nil` instead of returning the handler error. -/
theorem C1_handler_failure_eval :
    processNodes
        ⟨"wf-c1", [mkNode StartNodeID "start" "Start" "Begin",
            mkNode FormNodeID "form" "Form" "User Input",
            mkNode EndNodeID "end" "End" "Finish"],
          [mkEdge StartNodeID FormNodeID "", mkEdge StartNodeID EndNodeID ""]⟩
        ⟨⟨"", "jane@example.com", "Melbourne"⟩, ⟨"equals", 21⟩⟩
        trivialWeatherFn trivialEmailFn
      = .ret (some ⟨"", StatusCompleted,
          [appendStep (mkNode StartNodeID "start" "Start" "Begin") StatusCompleted
            [("duration", durationVal)],
           appendStep (mkNode FormNodeID "form" "Form" "User Input") StatusFailed
            [("error", .str "name is required"), ("duration", durationVal)],
           appendStep (mkNode EndNodeID "end" "End" "Finish") StatusCompleted
            [("duration", durationVal)]]⟩) none := rfl

/-- The condition arm of the dispatch on a successful evaluation: the
completed step it appends, spelled out. -/
theorem action_condition_branch {node : Node} {payload : ExecutePayload} {ctx : Ctx}
    (weatherFn : WeatherFn) (emailFn : EmailFn) {met : Bool} {q : ℚ}
    (hnid : node.id = ConditionNodeID)
    (hcond : processConditionNode node payload ctx = .ok met)
    (hq : ctxLookup ctx "weather.temperature" = some (.float q)) :
    processNodeAction node payload ctx weatherFn emailFn
      = .branch (appendStep node StatusCompleted
          [("conditionMet", .bool met),
           ("threshold", .float payload.condition.threshold),
           ("operator", .str payload.condition.operator),
           ("actualValue", optVal (ctxLookup ctx "weather.temperature")),
           ("message", .str (condMessage q ((payload.condition.operator).replace "_" " ")
              payload.condition.threshold
              (if met then ConditionMetString else ConditionNotMetString))),
           ("duration", durationVal)]) met ctx := by
  unfold processNodeAction processNodeActionKeyed
  rw [hnid]
  rw [if_neg (by decide), if_neg (by decide), if_neg (by decide), if_neg (by decide),
    if_pos rfl, hcond]
  dsimp only
  rw [hq]

/-- C3: whenever `processNodes` fails with the distinct
"no matching conditional edge" error, the result has status "failed" and
its step list ends with the condition node's own completed StepResult
(nothing beyond it); and whenever traversal reaches an unvisited condition
node whose evaluation succeeds while no outgoing edge carries the label
matching the boolean outcome, the traversal fails with exactly that error,
having appended exactly the condition node's completed step. -/
theorem C3_no_matching_cond_edge :
    (∀ (wf : WorkflowDefinition) (payload : ExecutePayload) (weatherFn : WeatherFn)
        (emailFn : EmailFn) (r : ExecutionResult) (cid : String),
      processNodes wf payload weatherFn emailFn
          = .ret (some r) (some (.noMatchingCondEdge cid)) →
      r.status = StatusFailed
        ∧ ∃ sts st, r.steps = sts ++ [st] ∧ st.nodeId = cid ∧ st.status = StatusCompleted)
    ∧ (∀ (wf : WorkflowDefinition) (payload : ExecutePayload) (weatherFn : WeatherFn)
        (emailFn : EmailFn) (fuel : Nat) (s : TravState) (node : Node) (met : Bool),
      s.visited.contains ConditionNodeID = false →
      nodeMapLookup wf.nodes ConditionNodeID = some node →
      processConditionNode node payload s.ctx = .ok met →
      wf.edges.find? (condEdgeMatch node.id met) = none →
      ∃ st, traverse wf (codeAct payload weatherFn emailFn) (fuel + 1) s ConditionNodeID
          = .fail (.noMatchingCondEdge node.id) ⟨s.visited ++ [ConditionNodeID], s.ctx⟩ [st]
        ∧ st.nodeId = node.id ∧ st.status = StatusCompleted) := by
  constructor
  · intro wf payload weatherFn emailFn r cid h
    unfold processNodes processNodesWith at h
    by_cases h1 : (nodeMapLookup wf.nodes StartNodeID).isNone
    · rw [if_pos h1] at h
      cases h
    · rw [if_neg h1] at h
      by_cases h2 : (nodeMapLookup wf.nodes EndNodeID).isNone
      · rw [if_pos h2] at h
        cases h
      · rw [if_neg h2] at h
        rcases htr : traverse wf (codeAct payload weatherFn emailFn) (wf.nodes.length + 1)
            ⟨[], []⟩ StartNodeID with ⟨s0, steps⟩ | ⟨e0, s0, steps⟩ | _ | _ <;>
          rw [htr] at h <;> try cases h
        -- only the fail outcome can deliver this error; `cases` substituted
        -- `r` with the failed result and the error with the routing error
        exact ⟨rfl, traverse_failShape (codeAct_actOk payload weatherFn emailFn)
          (actionKeyed_branchCompleted payload weatherFn emailFn Node.id)
          (wf.nodes.length + 1) ⟨[], []⟩ StartNodeID cid s0 steps htr⟩
  · intro wf payload weatherFn emailFn fuel s node met hv hlk hcond hfind
    have hnid : node.id = ConditionNodeID := (nodeMapLookup_mem_and_id hlk).2
    rcases processConditionNode_ok_float hcond with ⟨q, hq⟩
    have hA := action_condition_branch weatherFn emailFn hnid hcond hq
    have hA' : codeAct payload weatherFn emailFn node s.ctx
        = processNodeAction node payload s.ctx weatherFn emailFn := rfl
    refine ⟨appendStep node StatusCompleted
        [("conditionMet", .bool met),
         ("threshold", .float payload.condition.threshold),
         ("operator", .str payload.condition.operator),
         ("actualValue", optVal (ctxLookup s.ctx "weather.temperature")),
         ("message", .str (condMessage q ((payload.condition.operator).replace "_" " ")
            payload.condition.threshold
            (if met then ConditionMetString else ConditionNotMetString))),
         ("duration", durationVal)],
      ?_, by simp [appendStep], by simp [appendStep]⟩
    unfold traverse
    rw [if_neg (by rw [hv]; intro hcon; cases hcon)]
    simp only [hlk]
    rw [hA', hA]
    dsimp only
    rw [hfind]
    dsimp only
    simp [withSteps]

def c3wf : WorkflowDefinition :=
  ⟨"wf-c3",
   [mkNode StartNodeID "start" "Start" "Begin",
    mkNode WeatherAPINodeID "weather-api" "Weather" "Mocked",
    mkNode ConditionNodeID "condition" "Check" "Temp Check",
    mkNode EndNodeID "end" "End" "Finish"],
   [mkEdge StartNodeID WeatherAPINodeID "",
    mkEdge WeatherAPINodeID ConditionNodeID "",
    mkEdge ConditionNodeID EndNodeID "oops"]⟩

def c3payload : ExecutePayload := ⟨⟨"Jane", "jane@example.com", "Melbourne"⟩, ⟨"equals", 21⟩⟩

/-- The execution result at the C3 witness input: temperature mocked at
21.0, `equals 21.0` holds, but the only edge out of the condition node is
labelled `"oops"`. -/
def c3result : ExecutionResult :=
  ⟨"", StatusFailed,
   [appendStep (mkNode StartNodeID "start" "Start" "Begin") StatusCompleted
      [("duration", durationVal)],
    appendStep (mkNode WeatherAPINodeID "weather-api" "Weather" "Mocked") StatusCompleted
      [("temperature", .float 21), ("location", .str "Melbourne"), ("duration", durationVal)],
    appendStep (mkNode ConditionNodeID "condition" "Check" "Temp Check") StatusCompleted
      [("conditionMet", .bool true), ("threshold", .float 21), ("operator", .str "equals"),
       ("actualValue", .float 21),
       ("message", .str (condMessage 21 ("equals".replace "_" " ") 21 ConditionMetString)),
       ("duration", durationVal)]]⟩

/-- Witness for C3 at a concrete mislabeled workflow: both halves of the
theorem applied at the same input. -/
theorem C3_no_matching_cond_edge_witness :
    (processNodes c3wf c3payload mockWeather21 trivialEmailFn
        = .ret (some c3result) (some (.noMatchingCondEdge ConditionNodeID))
      ∧ c3result.status = StatusFailed
      ∧ ∃ sts st, c3result.steps = sts ++ [st] ∧ st.nodeId = ConditionNodeID
          ∧ st.status = StatusCompleted)
    ∧ ∃ st, traverse c3wf (codeAct c3payload mockWeather21 trivialEmailFn) 5
          ⟨[], [("weather.temperature", GoValue.float 21)]⟩ ConditionNodeID
        = .fail (.noMatchingCondEdge ConditionNodeID)
            ⟨[] ++ [ConditionNodeID], [("weather.temperature", GoValue.float 21)]⟩ [st]
      ∧ st.nodeId = ConditionNodeID ∧ st.status = StatusCompleted :=
  ⟨⟨rfl, C3_no_matching_cond_edge.1 c3wf c3payload mockWeather21 trivialEmailFn c3result
      ConditionNodeID rfl⟩,
   C3_no_matching_cond_edge.2 c3wf c3payload mockWeather21 trivialEmailFn 4
     ⟨[], [("weather.temperature", GoValue.float 21)]⟩
     (mkNode ConditionNodeID "condition" "Check" "Temp Check") true rfl rfl rfl rfl⟩

/-- The node ids visited by the traversal `processNodes` performs, in
visitation order: the final `visited` list of the run that `processNodes`
starts (same handlers, same fuel, same initial state).  `traverse` appends
a node's id to `visited` at the moment the node is visited (the
`visited[id] = true` mark), so this list records the actual visitation
order of the run, not an arbitrary ordering. -/
def runVisitOrder (wf : WorkflowDefinition) (payload : ExecutePayload)
    (weatherFn : WeatherFn) (emailFn : EmailFn) : List String :=
  match traverse wf (codeAct payload weatherFn emailFn) (wf.nodes.length + 1)
      ⟨[], []⟩ StartNodeID with
  | .ok s _ => s.visited
  | .fail _ s _ => s.visited
  | .panicked => []
  | .outOfFuel => []

/-- C7: every ExecutionResult `processNodes` produces has at most one
StepResult per node id, the steps appear in visitation order (the step
node-ids form a sublist of `runVisitOrder`, the duplicate-free list of
node ids in the order the run marked them visited), and every step's
output map carries the elapsed-time entry, failed steps included. -/
theorem C7_step_invariants (wf : WorkflowDefinition) (payload : ExecutePayload)
    (weatherFn : WeatherFn) (emailFn : EmailFn) (r : ExecutionResult) (err : Option WfError)
    (h : processNodes wf payload weatherFn emailFn = .ret (some r) err) :
    (runVisitOrder wf payload weatherFn emailFn).Nodup
      ∧ List.Sublist (r.steps.map StepResult.nodeId)
          (runVisitOrder wf payload weatherFn emailFn)
      ∧ (r.steps.map StepResult.nodeId).Nodup
      ∧ ∀ st ∈ r.steps, hasDuration st := by
  unfold processNodes processNodesWith at h
  by_cases h1 : (nodeMapLookup wf.nodes StartNodeID).isNone
  · rw [if_pos h1] at h
    cases h
  rw [if_neg h1] at h
  by_cases h2 : (nodeMapLookup wf.nodes EndNodeID).isNone
  · rw [if_pos h2] at h
    cases h
  rw [if_neg h2] at h
  have hext := traverse_ext wf (codeAct_actOk payload weatherFn emailFn)
    (wf.nodes.length + 1) ⟨[], []⟩ StartNodeID List.nodup_nil
  unfold runVisitOrder
  rcases htr : traverse wf (codeAct payload weatherFn emailFn) (wf.nodes.length + 1)
      ⟨[], []⟩ StartNodeID with ⟨s0, steps⟩ | ⟨e0, s0, steps⟩ | _ | _ <;>
    rw [htr] at h hext <;> try cases h
  all_goals
    rcases hext s0 steps rfl with ⟨newIds, e1, e2, e3, e4⟩
    simp only [List.nil_append] at e1
    dsimp only
    refine ⟨e2, ?_, ?_, e4⟩
    · show List.Sublist (steps.map StepResult.nodeId) s0.visited
      rw [e1]
      exact e3
    · show (steps.map StepResult.nodeId).Nodup
      exact List.Nodup.sublist e3 (by rw [e1] at e2; exact e2)

def c7wf : WorkflowDefinition :=
  ⟨"wf-c7", [mkNode StartNodeID "start" "Start" "Begin",
    mkNode EndNodeID "end" "End" "Finish"], [mkEdge StartNodeID EndNodeID ""]⟩

def c7result : ExecutionResult :=
  ⟨"", StatusCompleted,
   [appendStep (mkNode StartNodeID "start" "Start" "Begin") StatusCompleted
      [("duration", durationVal)],
    appendStep (mkNode EndNodeID "end" "End" "Finish") StatusCompleted
      [("duration", durationVal)]]⟩

/-- Witness for C7 at a concrete two-node run; the run's visitation order
evaluates to `[start, end]`, so the sublist conjunct is about the actual
order in which the run visited the nodes. -/
theorem C7_step_invariants_witness :
    runVisitOrder c7wf ⟨⟨"", "", ""⟩, ⟨"", 0⟩⟩ trivialWeatherFn trivialEmailFn
        = [StartNodeID, EndNodeID]
    ∧ (runVisitOrder c7wf ⟨⟨"", "", ""⟩, ⟨"", 0⟩⟩ trivialWeatherFn trivialEmailFn).Nodup
    ∧ List.Sublist (c7result.steps.map StepResult.nodeId)
        (runVisitOrder c7wf ⟨⟨"", "", ""⟩, ⟨"", 0⟩⟩ trivialWeatherFn trivialEmailFn)
    ∧ (c7result.steps.map StepResult.nodeId).Nodup
    ∧ ∀ st ∈ c7result.steps, hasDuration st :=
  ⟨rfl, C7_step_invariants c7wf ⟨⟨"", "", ""⟩, ⟨"", 0⟩⟩ trivialWeatherFn trivialEmailFn
    c7result none rfl⟩

/-- C10: the success path of the email node dereferences the node's
EmailTemplate metadata pointer without a nil guard — a traversal reaching
an unvisited email node whose metadata lacks a template (and whose handler
succeeds, as the default always does) panics instead of returning a failed
StepResult or an error; and totality holds under the precondition that the
email node in the node map (if any) carries an EmailTemplate. -/
theorem C10_email_nil_template :
    (∀ (wf : WorkflowDefinition) (payload : ExecutePayload) (weatherFn : WeatherFn)
        (emailFn : EmailFn) (fuel : Nat) (s : TravState) (id : String) (node : Node),
      s.visited.contains id = false →
      nodeMapLookup wf.nodes id = some node →
      node.id = EmailNodeID →
      emailFn node payload = none →
      node.data.metadata.emailTemplate = none →
      traverse wf (codeAct payload weatherFn emailFn) (fuel + 1) s id = .panicked)
    ∧ (∀ (wf : WorkflowDefinition) (payload : ExecutePayload) (weatherFn : WeatherFn)
        (emailFn : EmailFn),
      EmailGuard wf →
      ∃ res err, processNodes wf payload weatherFn emailFn = .ret res err) := by
  constructor
  · intro wf payload weatherFn emailFn fuel s id node hv hlk hnid hefn htmpl
    unfold traverse
    rw [if_neg (by rw [hv]; intro hcon; cases hcon)]
    simp only [hlk]
    have hA : codeAct payload weatherFn emailFn node s.ctx = .panicked := by
      unfold codeAct processNodeAction processNodeActionKeyed
      rw [hnid]
      rw [if_neg (by decide), if_neg (by decide), if_neg (by decide), if_neg (by decide),
        if_neg (by decide), if_pos rfl, hefn]
      dsimp only
      rw [htmpl]
    rw [hA]
  · intro wf payload weatherFn emailFn hg
    unfold processNodes processNodesWith
    by_cases h1 : (nodeMapLookup wf.nodes StartNodeID).isNone
    · rw [if_pos h1]
      exact ⟨none, some .missingStartNode, rfl⟩
    rw [if_neg h1]
    by_cases h2 : (nodeMapLookup wf.nodes EndNodeID).isNone
    · rw [if_pos h2]
      exact ⟨none, some .missingEndNode, rfl⟩
    rw [if_neg h2]
    rcases htr : traverse wf (codeAct payload weatherFn emailFn) (wf.nodes.length + 1)
        ⟨[], []⟩ StartNodeID with ⟨s0, steps⟩ | ⟨e0, s0, steps⟩ | _ | _
    · exact ⟨some ⟨"", StatusCompleted, steps⟩, none, rfl⟩
    · exact ⟨some ⟨"", StatusFailed, steps⟩, some e0, rfl⟩
    · exact absurd htr (traverse_no_panicked hg _ _ _)
    · refine absurd htr (traverse_no_outOfFuel (codeAct_actOk payload weatherFn emailFn)
        _ _ _ List.nodup_nil ?_)
      have hcard : unvisited wf ⟨[], []⟩ ≤ wf.nodes.length := by
        unfold unvisited
        calc ((wf.nodes.map Node.id).toFinset \ ([] : List String).toFinset).card
            ≤ (wf.nodes.map Node.id).toFinset.card :=
              Finset.card_le_card (Finset.sdiff_subset)
          _ ≤ (wf.nodes.map Node.id).length := List.toFinset_card_le _
          _ = wf.nodes.length := List.length_map _ _
      omega

def c10wf : WorkflowDefinition :=
  ⟨"wf-c10",
   [mkNode StartNodeID "start" "" "", mkNode EmailNodeID "email" "" "",
    mkNode EndNodeID "end" "" ""],
   [mkEdge StartNodeID EmailNodeID "", mkEdge EmailNodeID EndNodeID ""]⟩

/-- Witness for C10: a template-less email node panics when reached, and a
workflow whose node map has no template-less email node is total. -/
theorem C10_email_nil_template_witness :
    traverse c10wf (codeAct ⟨⟨"", "", ""⟩, ⟨"", 0⟩⟩ trivialWeatherFn trivialEmailFn) 3
        ⟨[], []⟩ EmailNodeID = .panicked
    ∧ ∃ res err, processNodes
        ⟨"wf-ok", [mkNode StartNodeID "start" "" "", mkNode EndNodeID "end" "" ""],
          [mkEdge StartNodeID EndNodeID ""]⟩
        ⟨⟨"", "", ""⟩, ⟨"", 0⟩⟩ trivialWeatherFn trivialEmailFn = .ret res err :=
  ⟨C10_email_nil_template.1 c10wf ⟨⟨"", "", ""⟩, ⟨"", 0⟩⟩ trivialWeatherFn trivialEmailFn
     2 ⟨[], []⟩ EmailNodeID (mkNode EmailNodeID "email" "" "") rfl rfl rfl rfl rfl,
   C10_email_nil_template.2
     ⟨"wf-ok", [mkNode StartNodeID "start" "" "", mkNode EndNodeID "end" "" ""],
       [mkEdge StartNodeID EndNodeID ""]⟩
     ⟨⟨"", "", ""⟩, ⟨"", 0⟩⟩ trivialWeatherFn trivialEmailFn
     (by intro n hcon; cases hcon)⟩

/-! ### C2: the dispatch key -/

def c2wf : WorkflowDefinition :=
  ⟨"wf-c2",
   [mkNode StartNodeID "start" "Start" "Begin",
    ⟨FormNodeID, "email", ⟨"Misnamed", "id and type disagree", ⟨some ⟨"S", "B"⟩, ""⟩⟩⟩,
    mkNode EndNodeID "end" "End" "Finish"],
   [mkEdge StartNodeID FormNodeID "", mkEdge FormNodeID EndNodeID ""]⟩

def c2payload : ExecutePayload := ⟨⟨"", "a@b.example", "Sydney"⟩, ⟨"equals", 0⟩⟩

/-- The per-step statuses of an outcome, for telling the two dispatch
rules apart. -/
def outcomeStepStatuses : ProcessOutcome → List String
  | .ret (some r) _ => r.steps.map StepResult.status
  | _ => []

/-- Counterexample for C2: in `c2wf` the middle node has id "form" but
type "email" (and carries an email template).  With an empty payload name
the code dispatches it by its id to the form handler, which fails — the
run records a failed step and stops there.  Under the spec's by-type
dispatch the node would run the email handler and the run would complete
with three completed steps.  The two disagree, so the handler is not
selected by the type discriminator. -/
theorem C2_dispatch_counterexample :
    outcomeStepStatuses (processNodes c2wf c2payload trivialWeatherFn trivialEmailFn)
        = [StatusCompleted, StatusFailed]
    ∧ outcomeStepStatuses
        (processNodesTypeDispatch c2wf c2payload trivialWeatherFn trivialEmailFn)
        = [StatusCompleted, StatusCompleted, StatusCompleted]
    ∧ processNodes c2wf c2payload trivialWeatherFn trivialEmailFn
        ≠ processNodesTypeDispatch c2wf c2payload trivialWeatherFn trivialEmailFn := by
  refine ⟨rfl, rfl, ?_⟩
  intro hcon
  have h2 := congrArg outcomeStepStatuses hcon
  rw [show outcomeStepStatuses (processNodes c2wf c2payload trivialWeatherFn trivialEmailFn)
      = [StatusCompleted, StatusFailed] from rfl,
    show outcomeStepStatuses
        (processNodesTypeDispatch c2wf c2payload trivialWeatherFn trivialEmailFn)
      = [StatusCompleted, StatusCompleted, StatusCompleted] from rfl] at h2
  simp [StatusCompleted, StatusFailed] at h2

/-- C2 (amended): the handler a node gets is selected by the node's id,
not by its type discriminator: rewriting every node's type arbitrarily
(while the substituted handlers ignore the rewrite, as the real ones do)
changes nothing in the outcome of `processNodes` except the `type` field
echoed into each StepResult. -/
theorem C2_dispatch_by_id (wf : WorkflowDefinition) (payload : ExecutePayload)
    (weatherFn : WeatherFn) (emailFn : EmailFn) (f : Node → String)
    (hw : ∀ n c, weatherFn (retypeNode f n) payload c = weatherFn n payload c)
    (he : ∀ n, emailFn (retypeNode f n) payload = emailFn n payload) :
    eraseOutcomeTypes (processNodes (retypeWf f wf) payload weatherFn emailFn)
      = eraseOutcomeTypes (processNodes wf payload weatherFn emailFn) := by
  unfold processNodes processNodesWith
  have hlen : (retypeWf f wf).nodes.length = wf.nodes.length := by
    simp [retypeWf]
  have hiso : ∀ id, (nodeMapLookup (retypeWf f wf).nodes id).isNone
      = (nodeMapLookup wf.nodes id).isNone := by
    intro id
    show (nodeMapLookup (wf.nodes.map (retypeNode f)) id).isNone = _
    rw [nodeMapLookup_retype]
    cases nodeMapLookup wf.nodes id <;> rfl
  by_cases h1 : (nodeMapLookup wf.nodes StartNodeID).isNone
  · rw [if_pos h1, if_pos (by rw [hiso]; exact h1)]
  rw [if_neg h1, if_neg (by rw [hiso]; exact h1)]
  by_cases h2 : (nodeMapLookup wf.nodes EndNodeID).isNone
  · rw [if_pos h2, if_pos (by rw [hiso]; exact h2)]
  rw [if_neg h2, if_neg (by rw [hiso]; exact h2)]
  have htr := traverse_retype wf hw he (wf.nodes.length + 1) ⟨[], []⟩ StartNodeID
  rw [hlen]
  rcases hr2 : traverse wf (codeAct payload weatherFn emailFn) (wf.nodes.length + 1)
      ⟨[], []⟩ StartNodeID with ⟨s2, out2⟩ | ⟨e2, s2, out2⟩ | _ | _ <;>
    rcases hr1 : traverse (retypeWf f wf) (codeAct payload weatherFn emailFn)
        (wf.nodes.length + 1) ⟨[], []⟩ StartNodeID with ⟨s1, out1⟩ | ⟨e1, s1, out1⟩ | _ | _ <;>
      rw [hr1, hr2] at htr <;> simp only [eraseResultTypes] at htr <;>
    first
    | (injection htr with hE hs ho
       subst hE
       dsimp only
       simp only [eraseOutcomeTypes, ho])
    | (injection htr with hs ho
       dsimp only
       simp only [eraseOutcomeTypes, ho])
    | rfl
    | cases htr

/-- Witness for C2 at a concrete retyping of `c2wf`. -/
theorem C2_dispatch_by_id_witness :
    eraseOutcomeTypes
        (processNodes (retypeWf (fun _ => "X") c2wf) c2payload trivialWeatherFn trivialEmailFn)
      = eraseOutcomeTypes (processNodes c2wf c2payload trivialWeatherFn trivialEmailFn) :=
  C2_dispatch_by_id c2wf c2payload trivialWeatherFn trivialEmailFn (fun _ => "X")
    (fun _ _ => rfl) (fun _ => rfl)

end Workflow
